import Mathlib

/-!
Verification of the Seplos V3 BMS sniffer core (stream framer, Modbus CRC
validator, frame decoders, update gate) against its natural-language
specification.  The JavaScript source is shallowly embedded: the working
buffer is a `List Nat` of byte values, byte access `buffer[i]` becomes
`byteAt` (out-of-range reads default to 0, which never matters at the
call sites, where the source guarantees the index is in range), numeric
metric values are rationals, and the per-byte body of `processStream` is
the step function `feedByte` folded over the input by `feedBytes`.
-/

set_option maxRecDepth 40000

namespace Seplos

/-- `buffer[i]` on the working buffer. -/
def byteAt (b : List Nat) (i : Nat) : Nat := b.getD i 0

/-- Embeds `isValidHeader` (part_001 lines 174-182): address byte in
[0x01, 0x10] and either function 0x04 with subtype 0x24/0x34, or
function 0x01 with subtype 0x12. -/
def isValidHeader (b : List Nat) : Bool :=
  (decide (0x01 ≤ byteAt b 0) && decide (byteAt b 0 ≤ 0x10) && (byteAt b 1 == 0x04)
      && ((byteAt b 2 == 0x24) || (byteAt b 2 == 0x34)))
    || (decide (0x01 ≤ byteAt b 0) && decide (byteAt b 0 ≤ 0x10) && (byteAt b 1 == 0x01)
      && (byteAt b 2 == 0x12))

/-- Embeds `getExpectedLength` (part_001 lines 184-196). -/
def getExpectedLength (b : List Nat) : Nat :=
  if byteAt b 2 == 0x24 then 41
  else if byteAt b 2 == 0x34 then 57
  else if byteAt b 1 == 0x01 && byteAt b 2 == 0x12 then 23
  else 0

/-- One round of the inner CRC loop: shift right, XOR with 0xA001 when the
bit shifted out was set. -/
def crcStep (crc : Nat) : Nat :=
  if crc % 2 == 1 then Nat.xor (crc / 2) 0xa001 else crc / 2

/-- `j` rounds of the inner CRC loop. -/
def crcRounds : Nat → Nat → Nat
  | crc, 0 => crc
  | crc, j + 1 => crcRounds (crcStep crc) j

/-- Embeds `calculateModbusCRC` (part_001 lines 204-217): start 0xFFFF,
XOR each byte in, 8 shift rounds per byte. -/
def calculateModbusCRC (data : List Nat) : Nat :=
  data.foldl (fun crc b => crcRounds (Nat.xor crc b) 8) 0xffff

/-- Embeds `validateCRC` (part_001 lines 198-202): received CRC is
`(buffer[length-1] << 8) | buffer[length-2]`, compared with the CRC of
`buffer.slice(0, length-2)`. -/
def validateCRC (b : List Nat) (len : Nat) : Bool :=
  Nat.lor (Nat.shiftLeft (byteAt b (len - 1)) 8) (byteAt b (len - 2))
    == calculateModbusCRC (b.take (len - 2))

/-- Embeds one iteration of the `for (const byte of data)` loop of
`processStream` (part_001 lines 118-137): push the byte; once 5 bytes are
present, drop the first byte when the header is invalid, and when the
declared length is reached hand the candidate to the CRC check, emitting
it only on success, and clear the buffer either way. -/
def feedByte (buf : List Nat) (x : Nat) : List Nat × List (List Nat) :=
  let b := buf ++ [x]
  if 5 ≤ b.length then
    if !isValidHeader b then (b.drop 1, [])
    else
      let L := getExpectedLength b
      if L ≤ b.length then
        ([], if validateCRC b L then [b.take L] else [])
      else (b, [])
  else (b, [])

/-- `processStream` on a whole chunk: fold `feedByte` over the input,
collecting the validated candidate frames in order. -/
def feedBytes (buf : List Nat) : List Nat → List Nat × List (List Nat)
  | [] => (buf, [])
  | x :: xs =>
    let r := feedByte buf x
    let t := feedBytes r.1 xs
    (t.1, r.2 ++ t.2)

/-- `buffer.readUInt16BE(off)`. -/
def u16 (b : List Nat) (off : Nat) : Nat := 256 * byteAt b off + byteAt b (off + 1)

/-- `buffer.readInt16BE(off)` (two's-complement 16-bit). -/
def s16 (b : List Nat) (off : Nat) : Int :=
  if u16 b off < 0x8000 then (u16 b off : Int) else (u16 b off : Int) - 0x10000

/-- A JavaScript state value: number (modelled exactly as a rational) or text. -/
inductive JSVal where
  | num (q : ℚ)
  | str (s : String)
deriving DecidableEq

/-- One entry of the `updates` object built by `processPacket`: state key
(relative to the bms folder), value, optional unit, role and common type. -/
structure MetricRec where
  key : String
  value : JSVal
  unit : Option String := none
  role : String
  ctype : String
deriving DecidableEq

/-- The 0x24 (pack telemetry) update set (part_001 lines 254-352). -/
def updates24 (b : List Nat) : List MetricRec :=
  [ { key := "pack_voltage", value := .num ((u16 b 3 : ℚ) / 100),
      unit := some "V", role := "value.voltage", ctype := "number" },
    { key := "current", value := .num ((s16 b 5 : ℚ) / 100),
      unit := some "A", role := "value.current", ctype := "number" },
    { key := "remaining_capacity", value := .num ((u16 b 7 : ℚ) / 100),
      unit := some "Ah", role := "value", ctype := "number" },
    { key := "total_capacity", value := .num ((u16 b 9 : ℚ) / 100),
      unit := some "AH", role := "value", ctype := "number" },
    { key := "total_discharge_capacity", value := .num ((u16 b 11 : ℚ) / 0.1),
      unit := some "AH", role := "value", ctype := "number" },
    { key := "soc", value := .num ((u16 b 13 : ℚ) / 10),
      unit := some "%", role := "value", ctype := "number" },
    { key := "soh", value := .num ((u16 b 15 : ℚ) / 10),
      unit := some "%", role := "value", ctype := "number" },
    { key := "cycle_count", value := .num (u16 b 17 : ℚ),
      unit := some "cycles", role := "value", ctype := "number" },
    { key := "average_cell_voltage", value := .num ((u16 b 19 : ℚ) / 1000),
      unit := some "V", role := "value.voltage", ctype := "number" },
    { key := "average_cell_temp", value := .num ((s16 b 21 : ℚ) / 10 - 273.15),
      unit := some "°C", role := "value.temperature", ctype := "number" },
    { key := "max_cell_voltage", value := .num ((u16 b 23 : ℚ) / 1000),
      unit := some "V", role := "value.voltage", ctype := "number" },
    { key := "min_cell_voltage", value := .num ((u16 b 25 : ℚ) / 1000),
      unit := some "V", role := "value.voltage", ctype := "number" },
    { key := "max_cell_temp", value := .num ((u16 b 27 : ℚ) / 10 - 273.15),
      unit := some "°C", role := "value.temperature", ctype := "number" },
    { key := "min_cell_temp", value := .num ((u16 b 29 : ℚ) / 10 - 273.15),
      unit := some "°C", role := "value.temperature", ctype := "number" },
    { key := "maxdiscurt", value := .num ((u16 b 33 : ℚ) / 1),
      unit := some "A", role := "value.current", ctype := "number" },
    { key := "maxchgcurt", value := .num ((u16 b 35 : ℚ) / 1),
      unit := some "A", role := "value.current", ctype := "number" } ]

/-- One cell-voltage entry of the 0x34 update set. -/
def cellVoltRec (b : List Nat) (n off : Nat) : MetricRec :=
  { key := "cell_" ++ toString n ++ "_voltage", value := .num ((u16 b off : ℚ) / 1000),
    unit := some "V", role := "value.voltage", ctype := "number" }

/-- One temperature entry of the 0x34 update set. -/
def tempRec (b : List Nat) (k : String) (off : Nat) : MetricRec :=
  { key := k, value := .num ((u16 b off : ℚ) / 10 - 273.15),
    unit := some "°C", role := "value.temperature", ctype := "number" }

/-- The 0x34 (cell detail) update set (part_001 lines 353-487): sixteen
cell voltages at offsets 3..33, four cell temperatures at 35..41, case and
power temperatures at 51 and 53. -/
def updates34 (b : List Nat) : List MetricRec :=
  [ cellVoltRec b 1 3, cellVoltRec b 2 5, cellVoltRec b 3 7, cellVoltRec b 4 9,
    cellVoltRec b 5 11, cellVoltRec b 6 13, cellVoltRec b 7 15, cellVoltRec b 8 17,
    cellVoltRec b 9 19, cellVoltRec b 10 21, cellVoltRec b 11 23, cellVoltRec b 12 25,
    cellVoltRec b 13 27, cellVoltRec b 14 29, cellVoltRec b 15 31, cellVoltRec b 16 33,
    tempRec b "cell_temp_1" 35, tempRec b "cell_temp_2" 37,
    tempRec b "cell_temp_3" 39, tempRec b "cell_temp_4" 41,
    tempRec b "case_temp" 51, tempRec b "power_temp" 53 ]

/-- `parseBits` applied to one bitmap byte, collecting `i + base` for each
set bit `i` (LSB first), as in the `forEach` loops of the 0x12 branch. -/
def bitCells (byte : Nat) (base : Nat) : List Nat :=
  (List.range 8).filterMap (fun i => if byte / 2 ^ i % 2 == 1 then some (i + base) else none)

/-- Low-voltage alarm cells: `buffer[3]` for cells 1-8, `buffer[4]` for 9-16. -/
def lowVoltageCells (b : List Nat) : List Nat :=
  bitCells (byteAt b 3) 1 ++ bitCells (byteAt b 4) 9

/-- High-voltage alarm cells: `buffer[5]` for cells 1-8, `buffer[6]` for 9-16. -/
def highVoltageCells (b : List Nat) : List Nat :=
  bitCells (byteAt b 5) 1 ++ bitCells (byteAt b 6) 9

/-- Low-temperature alarm cells from `buffer[7]`. -/
def lowTempCells (b : List Nat) : List Nat := bitCells (byteAt b 7) 1

/-- High-temperature alarm cells from `buffer[8]`. -/
def highTempCells (b : List Nat) : List Nat := bitCells (byteAt b 8) 1

/-- Balancing cells: `buffer[9]` for cells 1-8, `buffer[10]` for 9-16. -/
def balancingCells (b : List Nat) : List Nat :=
  bitCells (byteAt b 9) 1 ++ bitCells (byteAt b 10) 9

/-- `cells.join(', ')`. -/
def joinCells (l : List Nat) : String := String.intercalate ", " (l.map toString)

/-- `cells.length ? `label cells.join(', ')` : ''`. -/
def labeledCells (label : String) (l : List Nat) : String :=
  if l.isEmpty then "" else label ++ joinCells l

/-- `[a, b].filter(Boolean).join(' | ') || ''`. -/
def joinNonempty (parts : List String) : String :=
  String.intercalate " | " (parts.filter (fun s => !s.isEmpty))

/-- `(byte & mask) !== 0`, the guard of every push in the TB tables. -/
def maskSet (byte mask : Nat) : Bool := Nat.land byte mask != 0

/-- The singleton pushed by one `if (bit) push(label)` statement. -/
def entriesIf (c : Bool) (s : String) : List String := if c then [s] else []

/-- System status labels from `buffer[11]` (TB09, part_001 lines 562-581). -/
def systemStatus (b : List Nat) : List String :=
  entriesIf (maskSet (byteAt b 11) 0x01) "Discharge" ++
  entriesIf (maskSet (byteAt b 11) 0x02) "Charge" ++
  entriesIf (maskSet (byteAt b 11) 0x04) "Floating Charge" ++
  entriesIf (maskSet (byteAt b 11) 0x08) "Full Charge" ++
  entriesIf (maskSet (byteAt b 11) 0x10) "Standy Mode" ++
  entriesIf (maskSet (byteAt b 11) 0x20) "Turn Off"

/-- The `activeAlarms` list of the 0x12 branch, in source push order
(bytes 12-17 and 19, part_001 lines 583-742). -/
def activeAlarms (b : List Nat) : List String :=
  entriesIf (maskSet (byteAt b 12) 0x01) "Cell High Voltage Alarm" ++
  entriesIf (maskSet (byteAt b 12) 0x04) "Cell Low Voltage Alarm" ++
  entriesIf (maskSet (byteAt b 12) 0x10) "Pack High Voltage Alarm" ++
  entriesIf (maskSet (byteAt b 12) 0x40) "Pack Low Voltage Alarm" ++
  entriesIf (maskSet (byteAt b 13) 0x01) "Charge High Temperature Alarm" ++
  entriesIf (maskSet (byteAt b 13) 0x04) "Charge Low Temperature Alarm" ++
  entriesIf (maskSet (byteAt b 13) 0x10) "Discharge High Temperature Alarm" ++
  entriesIf (maskSet (byteAt b 13) 0x40) "Discharge Low Temperature Alarm" ++
  entriesIf (maskSet (byteAt b 14) 0x01) "High Environment Temperature Alarm" ++
  entriesIf (maskSet (byteAt b 14) 0x04) "Low Environment Temperature Alarm" ++
  entriesIf (maskSet (byteAt b 14) 0x10) "High Power Temperature Alarm" ++
  entriesIf (maskSet (byteAt b 14) 0x40) "Cell Temperature Low Heating" ++
  entriesIf (maskSet (byteAt b 15) 0x01) "Charge Current Alarm" ++
  entriesIf (maskSet (byteAt b 15) 0x08) "Discharge Current Alarm" ++
  entriesIf (maskSet (byteAt b 16) 0x01) "Output Short Latch Up" ++
  entriesIf (maskSet (byteAt b 16) 0x04) "Second Charge Latch Up" ++
  entriesIf (maskSet (byteAt b 16) 0x08) "Second Discharge Latch Up" ++
  entriesIf (maskSet (byteAt b 17) 0x04) "SOC Alarm" ++
  entriesIf (maskSet (byteAt b 17) 0x10) "Cell Difference Alarm" ++
  entriesIf (maskSet (byteAt b 19) 0x01) "Low SOC Alarm" ++
  entriesIf (maskSet (byteAt b 19) 0x02) "Intermittent Charge" ++
  entriesIf (maskSet (byteAt b 19) 0x04) "External Switch Conrol" ++
  entriesIf (maskSet (byteAt b 19) 0x08) "Static Standy Sleep Mode" ++
  entriesIf (maskSet (byteAt b 19) 0x10) "History Data Recording" ++
  entriesIf (maskSet (byteAt b 19) 0x40) "Active Limited Current" ++
  entriesIf (maskSet (byteAt b 19) 0x80) "Passive Limited Current"

/-- The `activeProtections` list of the 0x12 branch, in source push order
(bytes 12-15, 17, 19, 20, part_001 lines 583-768). -/
def activeProtections (b : List Nat) : List String :=
  entriesIf (maskSet (byteAt b 12) 0x02) "Cell Over Voltage Protection" ++
  entriesIf (maskSet (byteAt b 12) 0x08) "Cell Under Voltage Protection" ++
  entriesIf (maskSet (byteAt b 12) 0x20) "Pack Over Voltage Protection" ++
  entriesIf (maskSet (byteAt b 12) 0x80) "Pack Under Voltage Protection" ++
  entriesIf (maskSet (byteAt b 13) 0x02) "Charge High Temperature Protection" ++
  entriesIf (maskSet (byteAt b 13) 0x08) "Charge Under Temperature Protection" ++
  entriesIf (maskSet (byteAt b 13) 0x20) "Discharge Over Temperature Protection" ++
  entriesIf (maskSet (byteAt b 13) 0x80) "Discharge Under Temperature Protection" ++
  entriesIf (maskSet (byteAt b 14) 0x02) "Over Environment Temperature Protection" ++
  entriesIf (maskSet (byteAt b 14) 0x08) "Under Environment Temperature Protection" ++
  entriesIf (maskSet (byteAt b 14) 0x20) "Over Power Temperature Protection" ++
  entriesIf (maskSet (byteAt b 15) 0x02) "Charge Over Current Protection" ++
  entriesIf (maskSet (byteAt b 15) 0x04) "Charge Second Level Current Protection" ++
  entriesIf (maskSet (byteAt b 15) 0x10) "Discharge Over Current Protection" ++
  entriesIf (maskSet (byteAt b 15) 0x20) "Discharge Second Level Over Current Protection" ++
  entriesIf (maskSet (byteAt b 15) 0x40) "Output Short Circuit Protection" ++
  entriesIf (maskSet (byteAt b 17) 0x08) "SOC Protection" ++
  entriesIf (maskSet (byteAt b 19) 0x20) "Under SOC Protections" ++
  entriesIf (maskSet (byteAt b 20) 0x01) "NTC Fault" ++
  entriesIf (maskSet (byteAt b 20) 0x02) "AFE Fault" ++
  entriesIf (maskSet (byteAt b 20) 0x04) "Charge Mosfet Fault" ++
  entriesIf (maskSet (byteAt b 20) 0x08) "Discharge Mosfet Fault" ++
  entriesIf (maskSet (byteAt b 20) 0x10) "Cell Fault" ++
  entriesIf (maskSet (byteAt b 20) 0x20) "Break Line Fault" ++
  entriesIf (maskSet (byteAt b 20) 0x40) "Key Fault" ++
  entriesIf (maskSet (byteAt b 20) 0x80) "Aerosol Alarm"

/-- FET status labels from `buffer[18]` (TB07, part_001 lines 703-716). -/
def fetEvent (b : List Nat) : List String :=
  entriesIf (maskSet (byteAt b 18) 0x01) "Discharge FET On" ++
  entriesIf (maskSet (byteAt b 18) 0x02) "Charge FET On" ++
  entriesIf (maskSet (byteAt b 18) 0x04) "Current Limiting FET On" ++
  entriesIf (maskSet (byteAt b 18) 0x08) "Heating On"

/-- The 0x12 (alarm/status) update set (part_001 lines 488-806): seven
text-typed records. -/
def updates12 (b : List Nat) : List MetricRec :=
  [ { key := "system_status", value := .str (String.intercalate ", " (systemStatus b)),
      role := "text", ctype := "string" },
    { key := "active_balancing_cells",
      value := .str (if (balancingCells b).isEmpty then "" else joinCells (balancingCells b)),
      role := "text", ctype := "string" },
    { key := "cell_temperature_alarms",
      value := .str (joinNonempty
        [labeledCells "Low: " (lowTempCells b), labeledCells "High: " (highTempCells b)]),
      role := "text", ctype := "string" },
    { key := "cell_voltage_alarms",
      value := .str (joinNonempty
        [labeledCells "Low: " (lowVoltageCells b), labeledCells "High: " (highVoltageCells b)]),
      role := "text", ctype := "string" },
    { key := "FET_status", value := .str (String.intercalate ", " (fetEvent b)),
      role := "text", ctype := "string" },
    { key := "active_alarms",
      value := .str (if (activeAlarms b).isEmpty then "" else String.intercalate ", " (activeAlarms b)),
      role := "text", ctype := "string" },
    { key := "active_protections",
      value := .str (if (activeProtections b).isEmpty then ""
        else String.intercalate ", " (activeProtections b)),
      role := "text", ctype := "string" } ]

/-- Result of `processPacket` on one validated frame: the device index
`buffer[0] - 0x01`, whether the link-alive side effect fired
(`lastDataReceived`/`info.connection`, taken only when the index is 0),
and the update records with their full folder-qualified keys. -/
structure PacketOut where
  bmsIndex : Int
  linkAlive : Bool
  updates : List MetricRec
deriving DecidableEq

/-- The `bms_${bmsIndex}` folder name. -/
def bmsFolder (i : Int) : String := "bms_" ++ toString i

/-- Qualifies a record key with its bms folder, as the template literals
`${bmsFolder}.name` do. -/
def prefixKey (folder : String) (r : MetricRec) : MetricRec :=
  { r with key := folder ++ "." ++ r.key }

/-- Embeds `processPacket` (part_001 lines 235-806) up to the update-gate
loop: device index, link-alive side effect, and the decoded update set
dispatched on the subtype byte `buffer[2]`. -/
def processPacket (b : List Nat) : PacketOut :=
  let bmsIndex : Int := (byteAt b 0 : Int) - 1
  let upd :=
    if byteAt b 2 == 0x24 then updates24 b
    else if byteAt b 2 == 0x34 then updates34 b
    else if byteAt b 2 == 0x12 then updates12 b
    else []
  { bmsIndex := bmsIndex, linkAlive := bmsIndex == 0,
    updates := upd.map (prefixKey (bmsFolder bmsIndex)) }

/-- `this.lastUpdate[key] = now` on the timestamp table. -/
def setKey (m : List (String × Int)) (k : String) (v : Int) : List (String × Int) :=
  (k, v) :: m.filter (fun p => !(p.1 == k))

/-- The gate condition
`!this.lastUpdate[key] || now - this.lastUpdate[key] >= this.updateInterval`:
a missing entry is falsy, and so is a stored timestamp of 0. -/
def gatePass (minInterval now : Int) (stored : Option Int) : Bool :=
  match stored with
  | none => true
  | some t => (t == 0) || decide (minInterval ≤ now - t)

/-- Embeds the update-gate loop of `processPacket` (part_001 lines
808-827): for each record whose gate passes, record `now` for its key and
emit it; suppressed records leave the table untouched. Returns the final
table and the emitted records. -/
def runGate (minInterval now : Int) (last : List (String × Int)) :
    List MetricRec → List (String × Int) × List MetricRec
  | [] => (last, [])
  | r :: rs =>
    if gatePass minInterval now (List.lookup r.key last) then
      let res := runGate minInterval now (setKey last r.key now) rs
      (res.1, r :: res.2)
    else
      runGate minInterval now last rs

/-- Value of the update record with the given key, if any. -/
def findVal (l : List MetricRec) (k : String) : Option JSVal :=
  (l.find? (fun r => r.key == k)).map (fun r => r.value)

/-! ### Evaluation forms

Branchless clones of the CRC/framer pipeline, each proved equal to its
original.  They exist only so that the framer can be run on concrete byte
sequences inside proofs: the `if`-based originals are the faithful
embedding, but evaluating them on a full 41-byte frame exhausts the
elaborator stack, while the arithmetic forms below reduce cheaply. -/

/-- Branchless clone of `crcStep` (XOR with `0xA001` masked by the low bit). -/
def crcStepE (crc : Nat) : Nat := Nat.xor (crc / 2) (0xa001 * (crc % 2))

/-- Clone of `crcRounds` over `crcStepE`. -/
def crcRoundsE : Nat → Nat → Nat
  | crc, 0 => crc
  | crc, j + 1 => crcRoundsE (crcStepE crc) j

/-- Clone of `calculateModbusCRC` over `crcRoundsE`. -/
def calculateModbusCRCE (data : List Nat) : Nat :=
  data.foldl (fun crc b => crcRoundsE (Nat.xor crc b) 8) 0xffff

/-- Clone of `validateCRC` over `calculateModbusCRCE`. -/
def validateCRCE (b : List Nat) (len : Nat) : Bool :=
  Nat.lor (Nat.shiftLeft (byteAt b (len - 1)) 8) (byteAt b (len - 2))
    == calculateModbusCRCE (b.take (len - 2))

/-- Clone of `feedByte` over `validateCRCE`. -/
def feedByteE (buf : List Nat) (x : Nat) : List Nat × List (List Nat) :=
  let b := buf ++ [x]
  if 5 ≤ b.length then
    if !isValidHeader b then (b.drop 1, [])
    else
      let L := getExpectedLength b
      if L ≤ b.length then
        ([], if validateCRCE b L then [b.take L] else [])
      else (b, [])
  else (b, [])

/-- Clone of `feedBytes` over `feedByteE`. -/
def feedBytesE (buf : List Nat) : List Nat → List Nat × List (List Nat)
  | [] => (buf, [])
  | x :: xs =>
    let r := feedByteE buf x
    let t := feedBytesE r.1 xs
    (t.1, r.2 ++ t.2)

theorem crcStep_eq (c : Nat) : crcStep c = crcStepE c := by
  unfold crcStep crcStepE
  rcases Nat.mod_two_eq_zero_or_one c with h | h
  · simp [h]
    exact (Nat.xor_zero _).symm
  · simp [h]

theorem crcRounds_eq (j c : Nat) : crcRounds c j = crcRoundsE c j := by
  induction j generalizing c with
  | zero => rfl
  | succ j ih => simp [crcRounds, crcRoundsE, crcStep_eq, ih]

theorem calculateModbusCRC_eq (data : List Nat) :
    calculateModbusCRC data = calculateModbusCRCE data := by
  unfold calculateModbusCRC calculateModbusCRCE
  congr 1
  funext crc b
  exact crcRounds_eq 8 (Nat.xor crc b)

theorem validateCRC_eq (b : List Nat) (len : Nat) :
    validateCRC b len = validateCRCE b len := by
  unfold validateCRC validateCRCE
  rw [calculateModbusCRC_eq]

theorem feedByte_eq (buf : List Nat) (x : Nat) : feedByte buf x = feedByteE buf x := by
  unfold feedByte feedByteE
  simp only [validateCRC_eq]

theorem feedBytes_eq (l : List Nat) (buf : List Nat) :
    feedBytes buf l = feedBytesE buf l := by
  induction l generalizing buf with
  | nil => rfl
  | cons x xs ih => simp [feedBytes, feedBytesE, feedByte_eq, ih]

/-! ### Shared facts about the framer -/

theorem byteAt_append {l1 : List Nat} (l2 : List Nat) {i : Nat} (h : i < l1.length) :
    byteAt (l1 ++ l2) i = byteAt l1 i := by
  simp [byteAt, List.getElem?_append_left h]

theorem byteAt_take {l : List Nat} {n i : Nat} (h : i < n) :
    byteAt (l.take n) i = byteAt l i := by
  simp [byteAt, List.getElem?_take_of_lt h]

theorem isValidHeader_append {b : List Nat} (l : List Nat) (h : 3 ≤ b.length) :
    isValidHeader (b ++ l) = isValidHeader b := by
  unfold isValidHeader
  rw [byteAt_append l (by omega), byteAt_append l (by omega), byteAt_append l (by omega)]

theorem getExpectedLength_append {b : List Nat} (l : List Nat) (h : 3 ≤ b.length) :
    getExpectedLength (b ++ l) = getExpectedLength b := by
  unfold getExpectedLength
  rw [byteAt_append l (by omega), byteAt_append l (by omega)]

/-- A valid header pins the address byte into the device range. -/
theorem validHeader_addr {b : List Nat} (h : isValidHeader b = true) :
    1 ≤ byteAt b 0 ∧ byteAt b 0 ≤ 16 := by
  unfold isValidHeader at h
  simp only [Bool.or_eq_true, Bool.and_eq_true, decide_eq_true_eq, beq_iff_eq] at h
  rcases h with ⟨⟨⟨h1, h2⟩, _⟩, _⟩ | ⟨⟨⟨h1, h2⟩, _⟩, _⟩ <;> exact ⟨h1, h2⟩

/-- A valid header always declares one of the three protocol lengths. -/
theorem validHeader_len {b : List Nat} (h : isValidHeader b = true) :
    getExpectedLength b = 41 ∨ getExpectedLength b = 57 ∨ getExpectedLength b = 23 := by
  unfold isValidHeader at h
  simp only [Bool.or_eq_true, Bool.and_eq_true, decide_eq_true_eq, beq_iff_eq] at h
  unfold getExpectedLength
  rcases h with ⟨⟨_, h1⟩, h2 | h2⟩ | ⟨⟨_, h1⟩, h2⟩ <;> simp [h1, h2]

/-- `processStream` distributes over concatenation of the input. -/
theorem feedBytes_append (l1 l2 : List Nat) (buf : List Nat) :
    feedBytes buf (l1 ++ l2) =
      ((feedBytes (feedBytes buf l1).1 l2).1,
        (feedBytes buf l1).2 ++ (feedBytes (feedBytes buf l1).1 l2).2) := by
  induction l1 generalizing buf with
  | nil => simp [feedBytes]
  | cons x xs ih => simp [feedBytes, ih]

/-! ### C3: the CRC engine -/

/-- Spec-side reference round, following the spec's words: "if the low
bit is set, shift right one bit and XOR with 0xA001, else shift right one
bit with no XOR". -/
def modbusSpecRound (c : Nat) : Nat :=
  if c.testBit 0 then Nat.xor (c >>> 1) 0xa001 else c >>> 1

/-- Spec-side reference CRC, following the spec's words: "initialize to
0xFFFF; for each input byte, XOR into the low byte of the running value,
then perform 8 iterations" of `modbusSpecRound`. -/
def modbusCRCSpec (data : List Nat) : Nat :=
  data.foldl (fun crc b => modbusSpecRound^[8] (Nat.xor crc b)) 0xffff

theorem crcStep_eq_specRound (c : Nat) : crcStep c = modbusSpecRound c := by
  unfold crcStep modbusSpecRound
  have ht : c.testBit 0 = (c % 2 == 1) := by
    rw [Nat.testBit_zero]
    rcases Nat.mod_two_eq_zero_or_one c with h | h <;> simp [h]
  have hs : c >>> 1 = c / 2 := Nat.shiftRight_one c
  rw [ht, hs]

theorem crcRounds_eq_iterate (j c : Nat) : crcRounds c j = modbusSpecRound^[j] c := by
  induction j generalizing c with
  | zero => rfl
  | succ j ih =>
    rw [Function.iterate_succ_apply, crcRounds, crcStep_eq_specRound]
    exact ih (modbusSpecRound c)

theorem crcRounds_lt (j : Nat) {c : Nat} (h : c < 65536) : crcRounds c j < 65536 := by
  induction j generalizing c with
  | zero => exact h
  | succ j ih =>
    rw [crcRounds]
    apply ih
    unfold crcStep
    have h2 : c / 2 < 32768 := by omega
    rcases Nat.mod_two_eq_zero_or_one c with hp | hp
    · simp [hp]
      omega
    · simp [hp]
      exact @Nat.xor_lt_two_pow _ _ 16 (by omega) (by norm_num)

theorem calculateModbusCRC_lt {data : List Nat} (h : ∀ x ∈ data, x < 256) :
    calculateModbusCRC data < 65536 := by
  suffices hgen : ∀ l : List Nat, (∀ x ∈ l, x < 256) → ∀ c : Nat, c < 65536 →
      l.foldl (fun crc b => crcRounds (Nat.xor crc b) 8) c < 65536 by
    exact hgen data h 0xffff (by norm_num)
  intro l
  induction l with
  | nil => intro _ c hc; simpa using hc
  | cons x xs ih =>
    intro hl c hc
    rw [List.foldl_cons]
    refine ih (fun y hy => hl y (List.mem_cons_of_mem x hy)) _ (crcRounds_lt 8 ?_)
    exact @Nat.xor_lt_two_pow _ _ 16 (by omega)
      (lt_trans (hl x (List.mem_cons_self x xs)) (by norm_num))

/-- C3 (confirmed). `calculateModbusCRC` implements the standard Modbus
CRC-16: it coincides with the spec-side reference `modbusCRCSpec` on every
input, always produces a 16-bit value on byte input, and matches the
standard Modbus test vector ("123456789" ↦ 0x4B37).  Determinism and
purity are inherent: it is a total function of its input with no state. -/
theorem crc16_standard_modbus :
    (∀ data : List Nat, calculateModbusCRC data = modbusCRCSpec data) ∧
    (∀ data : List Nat, (∀ x ∈ data, x < 256) → calculateModbusCRC data < 65536) ∧
    calculateModbusCRC [0x31, 0x32, 0x33, 0x34, 0x35, 0x36, 0x37, 0x38, 0x39] = 0x4B37 := by
  refine ⟨fun data => ?_, fun data h => calculateModbusCRC_lt h, by decide⟩
  unfold calculateModbusCRC modbusCRCSpec
  congr 1
  funext crc b
  exact crcRounds_eq_iterate 8 (Nat.xor crc b)

/-- Witness for C3: the theorem applied at concrete inputs, with its
byte-range hypothesis discharged there. -/
theorem crc16_standard_modbus_witness :
    calculateModbusCRC [1, 4, 36] = modbusCRCSpec [1, 4, 36] ∧
    ((∀ x ∈ [250, 3], x < 256) ∧ calculateModbusCRC [250, 3] < 65536) :=
  ⟨crc16_standard_modbus.1 [1, 4, 36],
    by decide, crc16_standard_modbus.2.1 [250, 3] (by decide)⟩

/-! ### C1: header validity and declared length -/

/-- C1 counterexample. The buffer `[0x01, 0x00, 0x24, 0x00, 0x00]` has
(function, subtype) = (0x00, 0x24), which is none of the three known
pairs (its header is invalid), yet `getExpectedLength` declares 41, not 0:
the length lookup keys on the subtype byte alone for 0x24 and 0x34. -/
theorem getExpectedLength_nonpair_counterexample :
    isValidHeader [0x01, 0x00, 0x24, 0x00, 0x00] = false ∧
    getExpectedLength [0x01, 0x00, 0x24, 0x00, 0x00] = 41 := by decide

/-- C1 (corrected). For every buffer of at least 5 bytes: the header is
valid exactly when the first byte is in [0x01, 0x10] and the (second,
third) bytes are one of the pairs (0x04, 0x24), (0x04, 0x34),
(0x01, 0x12); the declared total length is 41 for subtype 0x24 and 57 for
subtype 0x34 regardless of the function byte, 23 for (0x01, 0x12), and 0
exactly when the subtype is neither 0x24 nor 0x34 and (function, subtype)
is not (0x01, 0x12). -/
theorem header_validity_and_length (b : List Nat) (_hlen : 5 ≤ b.length) :
    (isValidHeader b = true ↔
      (1 ≤ byteAt b 0 ∧ byteAt b 0 ≤ 16 ∧
        ((byteAt b 1 = 0x04 ∧ byteAt b 2 = 0x24) ∨
         (byteAt b 1 = 0x04 ∧ byteAt b 2 = 0x34) ∨
         (byteAt b 1 = 0x01 ∧ byteAt b 2 = 0x12)))) ∧
    (byteAt b 2 = 0x24 → getExpectedLength b = 41) ∧
    (byteAt b 2 = 0x34 → getExpectedLength b = 57) ∧
    (byteAt b 1 = 0x01 ∧ byteAt b 2 = 0x12 → getExpectedLength b = 23) ∧
    (getExpectedLength b = 0 ↔
      (byteAt b 2 ≠ 0x24 ∧ byteAt b 2 ≠ 0x34 ∧ ¬(byteAt b 1 = 0x01 ∧ byteAt b 2 = 0x12))) := by
  refine ⟨?_, ?_, ?_, ?_, ?_⟩
  · unfold isValidHeader
    simp only [Bool.or_eq_true, Bool.and_eq_true, decide_eq_true_eq, beq_iff_eq]
    tauto
  · intro h; simp [getExpectedLength, h]
  · intro h; simp [getExpectedLength, h]
  · rintro ⟨h1, h2⟩; simp [getExpectedLength, h1, h2]
  · unfold getExpectedLength
    split_ifs with h1 h2 h3 <;> simp_all

/-- Witness for C1: the theorem applied to a concrete valid 0x24 header
buffer. -/
theorem header_validity_and_length_witness :
    5 ≤ ([1, 4, 36, 0, 0] : List Nat).length ∧
    (isValidHeader [1, 4, 36, 0, 0] = true ↔
      (1 ≤ byteAt [1, 4, 36, 0, 0] 0 ∧ byteAt [1, 4, 36, 0, 0] 0 ≤ 16 ∧
        ((byteAt [1, 4, 36, 0, 0] 1 = 0x04 ∧ byteAt [1, 4, 36, 0, 0] 2 = 0x24) ∨
         (byteAt [1, 4, 36, 0, 0] 1 = 0x04 ∧ byteAt [1, 4, 36, 0, 0] 2 = 0x34) ∨
         (byteAt [1, 4, 36, 0, 0] 1 = 0x01 ∧ byteAt [1, 4, 36, 0, 0] 2 = 0x12)))) :=
  ⟨by decide, (header_validity_and_length [1, 4, 36, 0, 0] (by decide)).1⟩

/-! ### C2: the CRC gate in the stream -/

/-- A valid header keys on subtype/function bytes that are nonzero, so at
least 3 bytes must really be present. -/
theorem validHeader_min_len {b : List Nat} (h : isValidHeader b = true) :
    3 ≤ b.length := by
  by_contra hc
  have h2 : byteAt b 2 = 0 := by
    unfold byteAt
    exact List.getD_eq_default _ _ (by omega)
  unfold isValidHeader at h
  simp only [Bool.or_eq_true, Bool.and_eq_true, decide_eq_true_eq, beq_iff_eq, h2] at h
  rcases h with ⟨_, h | h⟩ | ⟨_, h⟩ <;> omega

theorem getExpectedLength_take {b : List Nat} {n : Nat} (h : 3 ≤ n) :
    getExpectedLength (b.take n) = getExpectedLength b := by
  unfold getExpectedLength
  rw [byteAt_take (by omega), byteAt_take (by omega)]

theorem validateCRC_take {b : List Nat} {L : Nat} (h1 : 1 ≤ L) (_h2 : L ≤ b.length) :
    validateCRC (b.take L) L = validateCRC b L := by
  unfold validateCRC
  rw [byteAt_take (by omega), byteAt_take (by omega), List.take_take,
    Nat.min_eq_left (by omega)]

/-- Every candidate emitted by one framer step is complete (its length is
its declared length) and CRC-validated. -/
theorem feedByte_packets {buf : List Nat} {x : Nat} {p : List Nat}
    (hp : p ∈ (feedByte buf x).2) :
    p.length = getExpectedLength p ∧ validateCRC p p.length = true := by
  unfold feedByte at hp
  dsimp only at hp
  split_ifs at hp with h5 hhdr hL hcrc <;> simp at hp
  subst hp
  have hhdr' : isValidHeader (buf ++ [x]) = true := by simpa using hhdr
  have hLv := validHeader_len hhdr'
  have h3 : 3 ≤ getExpectedLength (buf ++ [x]) := by omega
  have hlen : ((buf ++ [x]).take (getExpectedLength (buf ++ [x]))).length =
      getExpectedLength (buf ++ [x]) := by
    rw [List.length_take]
    omega
  refine ⟨by rw [hlen, getExpectedLength_take h3], ?_⟩
  rw [hlen, validateCRC_take (by omega) hL]
  exact hcrc

/-- Every candidate emitted by the framer on any input is complete and
CRC-validated. -/
theorem feedBytes_packets {buf input : List Nat} {p : List Nat}
    (hp : p ∈ (feedBytes buf input).2) :
    p.length = getExpectedLength p ∧ validateCRC p p.length = true := by
  induction input generalizing buf with
  | nil => simp [feedBytes] at hp
  | cons x xs ih =>
    rw [feedBytes] at hp
    rcases List.mem_append.mp hp with h | h
    · exact feedByte_packets h
    · exact ih h

/-- C2 (confirmed). A frame is never decoded unless its CRC check passed:
every candidate the framer hands on is complete for its declared length L
and satisfies `validateCRC` (received CRC `(b[L-1] << 8) | b[L-2]` equals
the CRC computed over `[0, L-2)`); and when a complete candidate fails the
check, the step discards it entirely — empty buffer, zero records. -/
theorem crc_checked_before_decode :
    (∀ buf input p, p ∈ (feedBytes buf input).2 →
      p.length = getExpectedLength p ∧ validateCRC p p.length = true) ∧
    (∀ buf x, isValidHeader (buf ++ [x]) = true →
      getExpectedLength (buf ++ [x]) ≤ (buf ++ [x]).length →
      validateCRC (buf ++ [x]) (getExpectedLength (buf ++ [x])) = false →
      feedByte buf x = ([], [])) := by
  constructor
  · intro buf input p hp
    exact feedBytes_packets hp
  · intro buf x hhdr hL hcrc
    unfold feedByte
    have h5 : 5 ≤ (buf ++ [x]).length := by
      have := validHeader_len hhdr
      omega
    rw [if_pos h5, hhdr]
    simp only [Bool.not_true, Bool.false_eq_true, if_false]
    rw [if_pos hL, hcrc]
    simp

/-- Witness for C2: a CRC-valid 23-byte 0x12 frame is emitted and
satisfies the theorem's conclusions; the same frame with one corrupted
payload byte is a complete candidate whose step yields empty buffer and
zero records. -/
theorem crc_checked_before_decode_witness :
    ([1, 1, 18, 0, 0, 0, 0, 0, 0, 0, 0, 0, 0, 0, 0, 0, 0, 0, 0, 0, 0, 139, 96] : List Nat)
        ∈ (feedBytes []
          [1, 1, 18, 0, 0, 0, 0, 0, 0, 0, 0, 0, 0, 0, 0, 0, 0, 0, 0, 0, 0, 139, 96]).2 ∧
    (([1, 1, 18, 0, 0, 0, 0, 0, 0, 0, 0, 0, 0, 0, 0, 0, 0, 0, 0, 0, 0, 139, 96] : List Nat).length =
        getExpectedLength [1, 1, 18, 0, 0, 0, 0, 0, 0, 0, 0, 0, 0, 0, 0, 0, 0, 0, 0, 0, 0, 139, 96] ∧
      validateCRC [1, 1, 18, 0, 0, 0, 0, 0, 0, 0, 0, 0, 0, 0, 0, 0, 0, 0, 0, 0, 0, 139, 96]
        ([1, 1, 18, 0, 0, 0, 0, 0, 0, 0, 0, 0, 0, 0, 0, 0, 0, 0, 0, 0, 0, 139, 96] : List Nat).length = true) ∧
    feedByte [1, 1, 18, 0, 0, 0, 0, 0, 0, 0, 0, 0, 0, 0, 0, 0, 0, 0, 0, 0, 255, 139]
      96 = ([], []) := by
  have hmem : ([1, 1, 18, 0, 0, 0, 0, 0, 0, 0, 0, 0, 0, 0, 0, 0, 0, 0, 0, 0, 0, 139, 96] : List Nat)
      ∈ (feedBytes []
        [1, 1, 18, 0, 0, 0, 0, 0, 0, 0, 0, 0, 0, 0, 0, 0, 0, 0, 0, 0, 0, 139, 96]).2 := by
    rw [feedBytes_eq]
    decide
  refine ⟨hmem, crc_checked_before_decode.1 _ _ _ hmem, ?_⟩
  apply crc_checked_before_decode.2
  · decide
  · decide
  · rw [validateCRC_eq]
    decide

/-! ### C5 and C9: the 0x24 pack-telemetry decoder -/

/-- C5 (confirmed). The 0x24 decoder reads big-endian 16-bit words at
fixed offsets with fixed scales: pack voltage is the unsigned word at
offset 3 over 100 (raw 5200 ↦ 52 V), current is the signed word at
offset 5 over 100 (raw -150 ↦ -1.5 A), and the three temperature fields
(signed word at offset 21, unsigned words at offsets 27 and 29) decode
deci-Kelvin to Celsius as raw/10 - 273.15 (raw 2981 ↦ 24.95 °C). -/
theorem decode24_fixed_offsets_and_scales (b : List Nat) (hsub : byteAt b 2 = 0x24) :
    (processPacket b).updates =
      (updates24 b).map (prefixKey (bmsFolder ((byteAt b 0 : Int) - 1))) ∧
    findVal (updates24 b) "pack_voltage" = some (.num ((u16 b 3 : ℚ) / 100)) ∧
    findVal (updates24 b) "current" = some (.num ((s16 b 5 : ℚ) / 100)) ∧
    findVal (updates24 b) "average_cell_temp" = some (.num ((s16 b 21 : ℚ) / 10 - 273.15)) ∧
    findVal (updates24 b) "max_cell_temp" = some (.num ((u16 b 27 : ℚ) / 10 - 273.15)) ∧
    findVal (updates24 b) "min_cell_temp" = some (.num ((u16 b 29 : ℚ) / 10 - 273.15)) ∧
    (u16 b 3 = 5200 → findVal (updates24 b) "pack_voltage" = some (.num 52)) ∧
    (s16 b 5 = -150 → findVal (updates24 b) "current" = some (.num (-(3 / 2 : ℚ)))) ∧
    (s16 b 21 = 2981 → findVal (updates24 b) "average_cell_temp" = some (.num (499 / 20 : ℚ))) ∧
    (u16 b 27 = 2981 → findVal (updates24 b) "max_cell_temp" = some (.num (499 / 20 : ℚ))) := by
  refine ⟨by simp [processPacket, hsub], ?_, ?_, ?_, ?_, ?_, ?_, ?_, ?_, ?_⟩ <;>
    simp [updates24, findVal, List.find?]
  · intro h; rw [h]; norm_num
  · intro h; rw [h]; norm_num
  · intro h; rw [h]; norm_num
  · intro h; rw [h]; norm_num

/-- Witness for C5: the theorem applied to a concrete 0x24 frame encoding
pack voltage 5200, current -150 and temperatures 2981, with every
hypothesis discharged by evaluation. -/
theorem decode24_fixed_offsets_and_scales_witness :
    findVal (updates24 [1, 4, 36, 20, 80, 255, 106, 0, 0, 0, 0, 0, 7, 0, 0, 0, 0, 0, 0,
        0, 0, 11, 165, 0, 0, 0, 0, 11, 165, 11, 165, 0, 0, 0, 0, 0, 0, 0, 0, 163, 15])
      "pack_voltage" = some (.num 52) ∧
    findVal (updates24 [1, 4, 36, 20, 80, 255, 106, 0, 0, 0, 0, 0, 7, 0, 0, 0, 0, 0, 0,
        0, 0, 11, 165, 0, 0, 0, 0, 11, 165, 11, 165, 0, 0, 0, 0, 0, 0, 0, 0, 163, 15])
      "current" = some (.num (-(3 / 2 : ℚ))) ∧
    findVal (updates24 [1, 4, 36, 20, 80, 255, 106, 0, 0, 0, 0, 0, 7, 0, 0, 0, 0, 0, 0,
        0, 0, 11, 165, 0, 0, 0, 0, 11, 165, 11, 165, 0, 0, 0, 0, 0, 0, 0, 0, 163, 15])
      "max_cell_temp" = some (.num (499 / 20 : ℚ)) :=
  ⟨(decode24_fixed_offsets_and_scales _ (by decide)).2.2.2.2.2.2.1 (by decide),
    (decode24_fixed_offsets_and_scales _ (by decide)).2.2.2.2.2.2.2.1 (by decide),
    (decode24_fixed_offsets_and_scales _ (by decide)).2.2.2.2.2.2.2.2.2 (by decide)⟩

/-- C9 (confirmed). The decoded total discharge capacity is the unsigned
word at offset 11 divided by 0.1, and dividing by the rational 0.1 is
exactly multiplication by 10. -/
theorem total_discharge_scale (b : List Nat) :
    findVal (updates24 b) "total_discharge_capacity" =
      some (.num ((u16 b 11 : ℚ) / 0.1)) ∧
    (u16 b 11 : ℚ) / 0.1 = 10 * (u16 b 11 : ℚ) := by
  constructor
  · simp [updates24, findVal, List.find?]
  · norm_num
    ring

/-! ### C8: device indexing and the link-alive signal -/

/-- C8 (confirmed). For a validated frame the device index is the address
byte minus 1 and lies in [0, 15]; address 0x01 (index 0) fires the
link-alive side effect, address 0x10 (index 15) does not — the link-alive
signal fires exactly for index 0, and `processPacket` returns nothing but
its own records besides these two fields. -/
theorem device_index_and_link_alive (b : List Nat) (hhdr : isValidHeader b = true) :
    (processPacket b).bmsIndex = (byteAt b 0 : Int) - 1 ∧
    0 ≤ (processPacket b).bmsIndex ∧ (processPacket b).bmsIndex ≤ 15 ∧
    ((processPacket b).linkAlive = true ↔ byteAt b 0 = 0x01) ∧
    (byteAt b 0 = 0x01 → (processPacket b).bmsIndex = 0 ∧ (processPacket b).linkAlive = true) ∧
    (byteAt b 0 = 0x10 → (processPacket b).bmsIndex = 15 ∧ (processPacket b).linkAlive = false) := by
  have haddr := validHeader_addr hhdr
  simp only [processPacket]
  refine ⟨by trivial, by omega, by omega, ?_, ?_, ?_⟩
  · simp only [beq_iff_eq]
    omega
  · intro h; rw [h]; simp
  · intro h; rw [h]; simp

/-- Witness for C8: the theorem applied to frames with address bytes
0x01 and 0x10. -/
theorem device_index_and_link_alive_witness :
    ((processPacket [1, 4, 36, 0, 0]).bmsIndex = 0 ∧
      (processPacket [1, 4, 36, 0, 0]).linkAlive = true) ∧
    ((processPacket [16, 4, 36, 0, 0]).bmsIndex = 15 ∧
      (processPacket [16, 4, 36, 0, 0]).linkAlive = false) :=
  ⟨(device_index_and_link_alive [1, 4, 36, 0, 0] (by decide)).2.2.2.2.1 (by decide),
    (device_index_and_link_alive [16, 4, 36, 0, 0] (by decide)).2.2.2.2.2 (by decide)⟩

/-! ### C6: the 0x12 alarm/status decoder -/

theorem mem_entriesIf {a s : String} {c : Bool} :
    a ∈ entriesIf c s ↔ c = true ∧ a = s := by
  cases c <;> simp [entriesIf]

theorem not_mem_entriesIf {a s : String} (h : a ≠ s) (c : Bool) :
    a ∉ entriesIf c s := by
  rw [mem_entriesIf]
  rintro ⟨_, rfl⟩
  exact h rfl

/-- C6 (confirmed). The 0x12 decoder maps bitfields to 1-based cell
indices and fixed labels: `buffer[3]` bit i set means a low-voltage alarm
on cell i+1 (with `buffer[3]` = 0b101 and `buffer[4]` = 0 the list is
exactly [1, 3]); `buffer[12]` = 0x01 produces the "Cell High Voltage
Alarm" and no other voltage-event label, whatever the other status bytes
are; and every record of the 0x12 update set is text-typed. -/
theorem decode12_bitfields (b : List Nat) :
    (byteAt b 3 = 5 → byteAt b 4 = 0 → lowVoltageCells b = [1, 3]) ∧
    (byteAt b 12 = 1 →
      ("Cell High Voltage Alarm" ∈ activeAlarms b ∧
        "Cell Low Voltage Alarm" ∉ activeAlarms b ∧
        "Pack High Voltage Alarm" ∉ activeAlarms b ∧
        "Pack Low Voltage Alarm" ∉ activeAlarms b ∧
        "Cell Over Voltage Protection" ∉ activeProtections b ∧
        "Cell Under Voltage Protection" ∉ activeProtections b ∧
        "Pack Over Voltage Protection" ∉ activeProtections b ∧
        "Pack Under Voltage Protection" ∉ activeProtections b)) ∧
    (∀ r ∈ updates12 b, r.ctype = "string") := by
  refine ⟨?_, ?_, ?_⟩
  · intro h3 h4
    unfold lowVoltageCells
    rw [h3, h4]
    decide
  · intro h12
    have hm1 : maskSet 1 0x01 = true := by decide
    have hm4 : maskSet 1 0x04 = false := by decide
    have hm16 : maskSet 1 0x10 = false := by decide
    have hm64 : maskSet 1 0x40 = false := by decide
    have hm2 : maskSet 1 0x02 = false := by decide
    have hm8 : maskSet 1 0x08 = false := by decide
    have hm32 : maskSet 1 0x20 = false := by decide
    have hm128 : maskSet 1 0x80 = false := by decide
    unfold activeAlarms activeProtections
    rw [h12]
    simp [hm1, hm4, hm16, hm64, hm2, hm8, hm32, hm128, mem_entriesIf]
  · intro r hr
    simp only [updates12, List.mem_cons, List.not_mem_nil, or_false] at hr
    rcases hr with rfl | rfl | rfl | rfl | rfl | rfl | rfl <;> rfl

/-- Witness for C6: the theorem applied to a concrete 0x12 frame with
`buffer[3]` = 5, `buffer[4]` = 0 and `buffer[12]` = 1. -/
theorem decode12_bitfields_witness :
    lowVoltageCells [1, 1, 18, 5, 0, 0, 0, 0, 0, 0, 0, 0, 1, 0, 0, 0, 0, 0, 0, 0, 0, 0, 0]
      = [1, 3] ∧
    "Cell High Voltage Alarm" ∈
      activeAlarms [1, 1, 18, 5, 0, 0, 0, 0, 0, 0, 0, 0, 1, 0, 0, 0, 0, 0, 0, 0, 0, 0, 0] :=
  ⟨(decode12_bitfields _).1 (by decide) (by decide),
    ((decode12_bitfields [1, 1, 18, 5, 0, 0, 0, 0, 0, 0, 0, 0, 1, 0, 0, 0, 0, 0, 0, 0, 0, 0, 0]).2.1
      (by decide)).1⟩

/-! ### C7: the update gate -/

/-- C7 counterexample. A key emitted at t = 0 stores timestamp 0, which
the gate condition `!this.lastUpdate[key]` treats as missing (JavaScript
falsiness), so the emission at t = 100 with minInterval 5000 is NOT
suppressed — the claim predicts suppression, since a prior timestamp
exists and 100 - 0 < 5000. -/
theorem update_gate_zero_timestamp_counterexample :
    (runGate 5000 0 []
        [{ key := "k", value := .num 0, role := "value", ctype := "number" }]).1 =
      [("k", 0)] ∧
    (runGate 5000 100 [("k", 0)]
        [{ key := "k", value := .num 0, role := "value", ctype := "number" }]).2 =
      [{ key := "k", value := .num 0, role := "value", ctype := "number" }] := by
  decide

/-- C7 (corrected). The gate emits a key exactly when no prior timestamp
exists, the stored timestamp is 0 (which the JavaScript falsiness check
treats as missing), or now - last ≥ minInterval; it records now for the
key exactly when it emits and leaves the table untouched on suppression;
the first emission of a key is never blocked; and in the claim's scenario
shifted off the zero timestamp (first emission at t = 1 ms), the second
emission at t = 101 is suppressed and a third at t = 5001 is accepted
with minInterval 5000. -/
theorem update_gate_policy :
    (∀ (minI now : Int) (last : List (String × Int)) (r : MetricRec),
        List.lookup r.key last = none →
        runGate minI now last [r] = (setKey last r.key now, [r])) ∧
    (∀ (minI now : Int) (last : List (String × Int)) (r : MetricRec) (t : Int),
        List.lookup r.key last = some t →
        runGate minI now last [r] =
          if t = 0 ∨ minI ≤ now - t then (setKey last r.key now, [r]) else (last, [])) ∧
    ((runGate 5000 1 []
        [{ key := "k", value := .num 0, role := "value", ctype := "number" }]).2 =
      [{ key := "k", value := .num 0, role := "value", ctype := "number" }] ∧
     (runGate 5000 101 [("k", 1)]
        [{ key := "k", value := .num 0, role := "value", ctype := "number" }]) =
      ([("k", 1)], []) ∧
     (runGate 5000 5001 [("k", 1)]
        [{ key := "k", value := .num 0, role := "value", ctype := "number" }]).2 =
      [{ key := "k", value := .num 0, role := "value", ctype := "number" }]) := by
  have gatePass_some : ∀ minI now t : Int,
      gatePass minI now (some t) = ((t == 0) || decide (minI ≤ now - t)) := fun _ _ _ => rfl
  have gatePass_none : ∀ minI now : Int, gatePass minI now none = true := fun _ _ => rfl
  refine ⟨?_, ?_, by decide, by decide, by decide⟩
  · intro minI now last r hl
    unfold runGate
    rw [hl, gatePass_none]
    simp [runGate]
  · intro minI now last r t hl
    unfold runGate
    rw [hl, gatePass_some]
    by_cases h0 : t = 0
    · simp [h0, runGate]
    · by_cases hge : minI ≤ now - t
      · simp [h0, hge, runGate]
      · simp [h0, hge, runGate]

/-- Witness for C7: the theorem applied at concrete inputs — a fresh key
(no prior timestamp) is emitted, and a stored nonzero timestamp inside
the interval is suppressed. -/
theorem update_gate_policy_witness :
    runGate 5000 7 []
        [{ key := "k", value := .num 0, role := "value", ctype := "number" }] =
      (setKey [] "k" 7, [{ key := "k", value := .num 0, role := "value", ctype := "number" }]) ∧
    runGate 5000 101 [("k", 1)]
        [{ key := "k", value := .num 0, role := "value", ctype := "number" }] =
      (if (1 : Int) = 0 ∨ (5000 : Int) ≤ 101 - 1 then
        (setKey [("k", 1)] "k" 101,
          [{ key := "k", value := .num 0, role := "value", ctype := "number" }])
      else ([("k", 1)], [])) :=
  ⟨update_gate_policy.1 5000 7 []
      { key := "k", value := .num 0, role := "value", ctype := "number" } (by decide),
    update_gate_policy.2.1 5000 101 [("k", 1)]
      { key := "k", value := .num 0, role := "value", ctype := "number" } 1 (by decide)⟩

/-! ### C4: resynchronisation after noise -/

/-- A buffer starting with a byte outside the device-address range can
never have a valid header. -/
theorem hdr_false_cons {a : Nat} (h : ¬(1 ≤ a ∧ a ≤ 16)) (l : List Nat) :
    isValidHeader (a :: l) = false := by
  have hd : (decide (1 ≤ a) && decide (a ≤ 16)) = false := by
    by_cases h1 : 1 ≤ a
    · have h2 : ¬a ≤ 16 := by omega
      simp [h2]
    · simp [h1]
  simp only [isValidHeader, byteAt, List.getD_cons_zero]
  simp [hd]

/-- Feeding bytes that cannot start a header leaves a short all-noise
buffer and emits nothing. -/
theorem feed_noise (noise : List Nat) (hn : ∀ x ∈ noise, ¬(1 ≤ x ∧ x ≤ 16)) :
    ∀ buf : List Nat, buf.length ≤ 4 → (∀ x ∈ buf, ¬(1 ≤ x ∧ x ≤ 16)) →
      (feedBytes buf noise).2 = [] ∧
      (feedBytes buf noise).1.length ≤ 4 ∧
      (∀ x ∈ (feedBytes buf noise).1, ¬(1 ≤ x ∧ x ≤ 16)) := by
  induction noise with
  | nil => intro buf hlen hnb; exact ⟨rfl, hlen, hnb⟩
  | cons x xs ih =>
    intro buf hlen hnb
    have hx : ¬(1 ≤ x ∧ x ≤ 16) := hn x (List.mem_cons_self x xs)
    have hxs : ∀ y ∈ xs, ¬(1 ≤ y ∧ y ≤ 16) := fun y hy => hn y (List.mem_cons_of_mem x hy)
    by_cases h4 : buf.length ≤ 3
    · have hr : feedByte buf x = (buf ++ [x], []) := by
        unfold feedByte
        rw [if_neg (by simp; omega)]
      have hmem : ∀ y ∈ buf ++ [x], ¬(1 ≤ y ∧ y ≤ 16) := by
        intro y hy
        rcases List.mem_append.mp hy with hy | hy
        · exact hnb y hy
        · rw [List.mem_singleton] at hy
          subst hy; exact hx
      obtain ⟨h1, h2, h3⟩ := ih hxs (buf ++ [x]) (by simp; omega) hmem
      rw [feedBytes]
      rw [hr]
      exact ⟨by simpa using h1, h2, h3⟩
    · have hlen4 : buf.length = 4 := by omega
      obtain ⟨a, t, rfl⟩ : ∃ a t, buf = a :: t := by
        cases buf with
        | nil => simp at hlen4
        | cons a t => exact ⟨a, t, rfl⟩
      have ha : ¬(1 ≤ a ∧ a ≤ 16) := hnb a (List.mem_cons_self a t)
      simp only [List.length_cons] at hlen4
      have hr : feedByte (a :: t) x = (t ++ [x], []) := by
        unfold feedByte
        rw [if_pos (by simp; omega)]
        rw [List.cons_append, hdr_false_cons ha (t ++ [x])]
        simp
      have hmem : ∀ y ∈ t ++ [x], ¬(1 ≤ y ∧ y ≤ 16) := by
        intro y hy
        rcases List.mem_append.mp hy with hy | hy
        · exact hnb y (List.mem_cons_of_mem a hy)
        · rw [List.mem_singleton] at hy
          subst hy; exact hx
      obtain ⟨h1, h2, h3⟩ := ih hxs (t ++ [x]) (by simp; omega) hmem
      rw [feedBytes]
      rw [hr]
      exact ⟨by simpa using h1, h2, h3⟩

/-- Feeding four bytes into a short all-noise buffer flushes the noise:
the buffer becomes exactly those four bytes and nothing is emitted. -/
theorem feed_four (buf : List Nat) (hlen : buf.length ≤ 4)
    (hnb : ∀ u ∈ buf, ¬(1 ≤ u ∧ u ≤ 16)) (w x y z : Nat) :
    feedBytes buf [w, x, y, z] = ([w, x, y, z], []) := by
  rcases buf with _ | ⟨a, _ | ⟨b2, _ | ⟨c, _ | ⟨d, rest⟩⟩⟩⟩
  · simp [feedBytes, feedByte]
  · have ha : ¬(1 ≤ a ∧ a ≤ 16) := hnb a (by simp)
    simp [feedBytes, feedByte, hdr_false_cons ha]
  · have ha : ¬(1 ≤ a ∧ a ≤ 16) := hnb a (by simp)
    have hb : ¬(1 ≤ b2 ∧ b2 ≤ 16) := hnb b2 (by simp)
    simp [feedBytes, feedByte, hdr_false_cons ha, hdr_false_cons hb]
  · have ha : ¬(1 ≤ a ∧ a ≤ 16) := hnb a (by simp)
    have hb : ¬(1 ≤ b2 ∧ b2 ≤ 16) := hnb b2 (by simp)
    have hc : ¬(1 ≤ c ∧ c ≤ 16) := hnb c (by simp)
    simp [feedBytes, feedByte, hdr_false_cons ha, hdr_false_cons hb, hdr_false_cons hc]
  · cases rest with
    | cons e es => simp at hlen
    | nil =>
      have ha : ¬(1 ≤ a ∧ a ≤ 16) := hnb a (by simp)
      have hb : ¬(1 ≤ b2 ∧ b2 ≤ 16) := hnb b2 (by simp)
      have hc : ¬(1 ≤ c ∧ c ≤ 16) := hnb c (by simp)
      have hd : ¬(1 ≤ d ∧ d ≤ 16) := hnb d (by simp)
      simp [feedBytes, feedByte, hdr_false_cons ha, hdr_false_cons hb,
        hdr_false_cons hc, hdr_false_cons hd]

/-- Once the buffer is a header-valid 0x24 frame prefix of at least 4
bytes, the remaining frame bytes only accumulate, and at the declared
length 41 the whole candidate is CRC-checked and the buffer cleared. -/
theorem feed_growing (rest : List Nat) :
    ∀ buf : List Nat, 4 ≤ buf.length →
      isValidHeader buf = true → byteAt buf 2 = 0x24 →
      buf.length + rest.length = 41 → rest ≠ [] →
      feedBytes buf rest =
        ([], if validateCRC (buf ++ rest) 41 = true then [buf ++ rest] else []) := by
  induction rest with
  | nil => intro buf _ _ _ _ hne; exact absurd rfl hne
  | cons x xs ih =>
    intro buf hlen hhdr h24 hsum _
    have h3 : 3 ≤ buf.length := by omega
    have hhdr' : isValidHeader (buf ++ [x]) = true := by
      rw [isValidHeader_append _ h3]; exact hhdr
    have h24' : byteAt (buf ++ [x]) 2 = 0x24 := by
      rw [byteAt_append _ (by omega)]; exact h24
    have hL' : getExpectedLength (buf ++ [x]) = 41 := by simp [getExpectedLength, h24']
    have h5 : 5 ≤ (buf ++ [x]).length := by simp; omega
    have hsum' : buf.length + (xs.length + 1) = 41 := by simpa using hsum
    cases xs with
    | nil =>
      have hr : feedByte buf x =
          ([], if validateCRC (buf ++ [x]) 41 = true then [buf ++ [x]] else []) := by
        unfold feedByte
        rw [if_pos h5, hhdr']
        simp only [Bool.not_true, Bool.false_eq_true, if_false]
        rw [hL', if_pos (by simp at hsum' ⊢; omega)]
        rw [List.take_of_length_le (by simp at hsum' ⊢; omega)]
      rw [feedBytes, hr]
      simp [feedBytes]
    | cons y ys =>
      have hr : feedByte buf x = (buf ++ [x], []) := by
        unfold feedByte
        rw [if_pos h5, hhdr']
        simp only [Bool.not_true, Bool.false_eq_true, if_false]
        rw [hL', if_neg (by simp at hsum' ⊢; omega)]
      rw [feedBytes, hr]
      rw [ih (buf ++ [x]) (by simp; omega) hhdr' h24'
        (by simp at hsum' ⊢; omega) (by simp)]
      simp

/-- C4 counterexample. A concrete CRC-valid, well-formed 41-byte 0x24
frame that alone decodes to exactly one record set; yet preceded by the
three noise bytes 0x01 0x04 0x24 (which look like a frame start) the
framer consumes 38 frame bytes into a misaligned candidate, fails the
CRC, clears the buffer, and decodes nothing at all — not one record set. -/
theorem resync_counterexample :
    isValidHeader ([1, 4, 36] ++ List.replicate 36 0 ++ [138, 93]) = true ∧
    ([1, 4, 36] ++ List.replicate 36 0 ++ [138, 93] : List Nat).length = 41 ∧
    validateCRC ([1, 4, 36] ++ List.replicate 36 0 ++ [138, 93]) 41 = true ∧
    (feedBytes [] ([1, 4, 36] ++ List.replicate 36 0 ++ [138, 93])).2 =
      [[1, 4, 36] ++ List.replicate 36 0 ++ [138, 93]] ∧
    (feedBytes [] ([1, 4, 36] ++ ([1, 4, 36] ++ List.replicate 36 0 ++ [138, 93]))).2 = [] := by
  refine ⟨by decide, by decide, ?_, ?_, ?_⟩
  · rw [validateCRC_eq]; decide
  · rw [feedBytes_eq]; decide
  · rw [feedBytes_eq]; decide

/-- C4 (corrected). Alignment is recovered after noise provided no noise
byte lies in the device-address range [0x01, 0x10] (so no noise byte can
begin a valid header): for every such noise sequence of any length N ≥ 0
followed by a well-formed, CRC-valid 41-byte frame of subtype 0x24, the
framer emits exactly that frame, once. -/
theorem resync_after_nonaddress_noise (noise frame : List Nat)
    (hn : ∀ x ∈ noise, ¬(1 ≤ x ∧ x ≤ 16))
    (hlen : frame.length = 41) (hhdr : isValidHeader frame = true)
    (h24 : byteAt frame 2 = 0x24) (hcrc : validateCRC frame 41 = true) :
    (feedBytes [] (noise ++ frame)).2 = [frame] := by
  obtain ⟨f0, f1, f2, f3, rest, rfl⟩ :
      ∃ f0 f1 f2 f3 rest, frame = f0 :: f1 :: f2 :: f3 :: rest := by
    rcases frame with _ | ⟨f0, _ | ⟨f1, _ | ⟨f2, _ | ⟨f3, rest⟩⟩⟩⟩ <;> simp at hlen
    exact ⟨f0, f1, f2, f3, rest, rfl⟩
  have hrest : rest.length = 37 := by simpa using hlen
  obtain ⟨hN2, hNlen, hNmem⟩ := feed_noise noise hn [] (by simp) (by simp)
  rw [feedBytes_append]
  rw [hN2]
  have hsplit : f0 :: f1 :: f2 :: f3 :: rest = [f0, f1, f2, f3] ++ rest := rfl
  rw [hsplit, feedBytes_append]
  rw [feed_four (feedBytes [] noise).1 hNlen hNmem f0 f1 f2 f3]
  have hhdr4 : isValidHeader [f0, f1, f2, f3] = true := by
    rw [← isValidHeader_append rest (by simp)]
    exact hhdr
  have h244 : byteAt [f0, f1, f2, f3] 2 = 0x24 := by
    rw [← byteAt_append rest (by simp : (2 : Nat) < ([f0, f1, f2, f3] : List Nat).length)]
    exact h24
  rw [feed_growing rest [f0, f1, f2, f3] (by simp) hhdr4 h244
    (by simp [hrest]) (by intro hc; rw [hc] at hrest; simp at hrest)]
  rw [← hsplit] at *
  simp [hcrc]

/-- Witness for C4: the theorem applied to two concrete noise bytes
(0 and 255, both outside the address range) and the concrete CRC-valid
zero-payload 0x24 frame. -/
theorem resync_after_nonaddress_noise_witness :
    (feedBytes [] ([0, 255] ++ ([1, 4, 36] ++ List.replicate 36 0 ++ [138, 93]))).2 =
      [[1, 4, 36] ++ List.replicate 36 0 ++ [138, 93]] :=
  resync_after_nonaddress_noise [0, 255] ([1, 4, 36] ++ List.replicate 36 0 ++ [138, 93])
    (by decide) (by decide) (by decide) (by decide) (by rw [validateCRC_eq]; decide)

/-! ### C10: the working buffer is bounded -/

/-- Framer state invariant: either fewer than 5 bytes are buffered, or the
buffer is a strict prefix of a declared frame with a valid header. -/
def framerInv (buf : List Nat) : Prop :=
  buf.length ≤ 4 ∨ (isValidHeader buf = true ∧ buf.length < getExpectedLength buf)

theorem framerInv_le {buf : List Nat} (h : framerInv buf) : buf.length ≤ 56 := by
  rcases h with h | ⟨hv, hlt⟩
  · omega
  · have := validHeader_len hv
    omega

theorem feedByte_inv {buf : List Nat} (h : framerInv buf) (x : Nat) :
    framerInv (feedByte buf x).1 := by
  unfold feedByte
  dsimp only
  split_ifs with h5 hhdr hL
  · dsimp only
    left
    rcases h with hl | ⟨hv, _⟩
    · simp
      omega
    · exfalso
      have h3 := validHeader_min_len hv
      have hv' : isValidHeader (buf ++ [x]) = true := by
        rw [isValidHeader_append _ h3]
        exact hv
      simp [hv'] at hhdr
  · dsimp only
    left
    simp
  · dsimp only
    left
    simp
  · dsimp only
    right
    refine ⟨by simpa using hhdr, ?_⟩
    omega
  · dsimp only
    left
    simp at h5 ⊢
    omega

theorem feedBytes_inv {buf : List Nat} (h : framerInv buf) (input : List Nat) :
    framerInv (feedBytes buf input).1 := by
  induction input generalizing buf with
  | nil => exact h
  | cons x xs ih =>
    rw [feedBytes]
    exact ih (feedByte_inv h x)

/-- C10 (confirmed). Starting from an empty buffer, after any input
stream has been processed byte by byte the working buffer holds at most
56 bytes (hence pushing the next byte can never make it exceed 57): the
framer's memory is bounded by a constant independent of the input.
Since every prefix of a stream is itself a stream, the bound holds after
every single input byte. -/
theorem buffer_bounded (input : List Nat) :
    (feedBytes [] input).1.length ≤ 56 ∧
    ∀ x : Nat, ((feedBytes [] input).1 ++ [x]).length ≤ 57 := by
  have hinv : framerInv (feedBytes [] input).1 :=
    feedBytes_inv (Or.inl (by simp)) input
  have hle := framerInv_le hinv
  refine ⟨hle, fun x => ?_⟩
  simp
  omega

end Seplos
